import Mathlib

/-!
# Spam-detection dashboard: `static/script.js`

A shallow embedding of the browser-side script and the properties proved
about it.  Strings are Lean strings, the DOM is replaced by the values the
script writes into it, and numbers are exact (integers, or rationals where
the script divides); the result of a JavaScript division is a `JSNum`, which
keeps the two non-finite outcomes `Infinity` and `NaN` apart.
-/

set_option autoImplicit false

namespace SpamDetection

/-! ## Strings -/

/-- The characters removed by `String.prototype.trim`: the ECMAScript
`WhiteSpace` and `LineTerminator` code points. -/
def isWhiteSpace (c : Char) : Bool :=
  let n := c.toNat
  n == 0x09 || n == 0x0A || n == 0x0B || n == 0x0C || n == 0x0D || n == 0x20 ||
  n == 0xA0 || n == 0x1680 || (0x2000 ≤ n && n ≤ 0x200A) || n == 0x2028 ||
  n == 0x2029 || n == 0x202F || n == 0x205F || n == 0x3000 || n == 0xFEFF

/-- Strip white space from both ends of a character list. -/
def trimChars (cs : List Char) : List Char :=
  ((cs.dropWhile isWhiteSpace).reverse.dropWhile isWhiteSpace).reverse

/-- The method `s.trim()`. -/
def trim (s : String) : String := ⟨trimChars s.data⟩

/-- The operator `a || b` on strings: `a` when it is truthy (non-empty), else `b`. -/
def jsOr (a b : String) : String := if a = "" then b else a

/-- Replace the first occurrence of the character `pat` by `rep`. -/
def replaceFirstChars (pat rep : Char) : List Char → List Char
  | [] => []
  | c :: cs => if c = pat then rep :: cs else c :: replaceFirstChars pat rep cs

/-- The call `s.replace(pat, rep)` for a one-character string pattern: only the
first occurrence is replaced. -/
def replaceFirst (s : String) (pat rep : Char) : String :=
  ⟨replaceFirstChars pat rep s.data⟩

/-! ## Numbers -/

/-- The value of a JavaScript arithmetic expression over exact rationals: a
finite number, one of the infinities, or `NaN`. -/
inductive JSNum where
  | fin (q : ℚ)
  | posInf
  | negInf
  | nan
  deriving DecidableEq

/-- The quotient `a / b` of two finite numbers. -/
def jsDiv (a b : ℚ) : JSNum :=
  if b = 0 then
    if a = 0 then JSNum.nan else if 0 < a then JSNum.posInf else JSNum.negInf
  else JSNum.fin (a / b)

/-- The product `x * k` with a finite positive constant `k`. -/
def jsMulPos (x : JSNum) (k : ℚ) : JSNum :=
  match x with
  | JSNum.fin q => JSNum.fin (q * k)
  | JSNum.posInf => JSNum.posInf
  | JSNum.negInf => JSNum.negInf
  | JSNum.nan => JSNum.nan

/-- The sum `x + y`. -/
def jsAdd (x y : JSNum) : JSNum :=
  match x, y with
  | JSNum.fin a, JSNum.fin b => JSNum.fin (a + b)
  | JSNum.nan, _ => JSNum.nan
  | _, JSNum.nan => JSNum.nan
  | JSNum.posInf, JSNum.negInf => JSNum.nan
  | JSNum.negInf, JSNum.posInf => JSNum.nan
  | JSNum.posInf, _ => JSNum.posInf
  | _, JSNum.posInf => JSNum.posInf
  | JSNum.negInf, _ => JSNum.negInf
  | _, JSNum.negInf => JSNum.negInf

/-- A number is well defined when it is finite. -/
def JSNum.isFinite : JSNum → Bool
  | JSNum.fin _ => true
  | _ => false

/-! ## The analysis response and `displayResults` -/

/-- The evidence stored under one key of `details`. -/
inductive DetailValue where
  | list (items : List String)
  | bool (b : Bool)
  | num (n : Int)
  | str (s : String)
  | null
  deriving DecidableEq

/-- The body of a response of `/api/analyze`; `details` is listed in the order
of `Object.entries`. -/
structure AnalysisResponse where
  spam_score : Int
  spam_level : String
  credibility : Int
  details : List (String × DetailValue)
  deriving DecidableEq

def greenBackground : String := "linear-gradient(135deg, #10b981 0%, #059669 100%)"
def amberBackground : String := "linear-gradient(135deg, #f59e0b 0%, #d97706 100%)"
def redBackground : String := "linear-gradient(135deg, #ef4444 0%, #dc2626 100%)"

/-- The background given to `.score-box` (script.js lines 90-96). -/
def scoreBoxBackground (spamScore : Int) : String :=
  if spamScore < 20 then greenBackground
  else if spamScore < 40 then amberBackground
  else redBackground

/-- The array `recommendations` (script.js lines 119-132). -/
def recommendations (spamScore : Int) : List String :=
  if spamScore < 20 then
    ["This article appears to be legitimate.",
     "Source is reliable for news consumption."]
  else if spamScore < 40 then
    ["Exercise caution - some indicators suggest potential issues.",
     "Verify information with multiple sources.",
     "Check author credibility and publication date."]
  else
    ["High spam probability detected!",
     "Do not share without verification.",
     "Cross-reference with trusted sources.",
     "Check for sensationalism or misleading claims."]

/-- The markup built for one entry of `details` (script.js lines 105-113). -/
def detailHtml (key : String) (value : DetailValue) : String :=
  let html := "<div class=\"detail-item\">"
  let html := html ++ ("<div class=\"detail-category\">" ++ replaceFirst key '_' ' ' ++ "</div>")
  let html :=
    match value with
    | DetailValue.list items =>
        html ++ ("<div class=\"detail-items\">" ++ ", ".intercalate items ++ "</div>")
    | DetailValue.bool true => html ++ "<div class=\"detail-items\">Detected</div>"
    | _ => html
  html ++ "</div>"

/-- The loop over `Object.entries(details)` (script.js lines 102-116); `acc`
holds the fragments appended to `detailsList.innerHTML` so far. -/
def detailsLoop : List (String × DetailValue) → List String → List String
  | [], acc => acc
  | (key, value) :: rest, acc =>
      if key = "word_count" then detailsLoop rest acc
      else detailsLoop rest (acc ++ [detailHtml key value])

/-- What `displayResults` writes into the page: the score, the meter width,
the credibility, the background of the score box, the fragments appended to
the details list and the recommendations.  The upper-cased level text and the
scrolling are left out. -/
structure ResultsView where
  spamScoreText : Int
  meterWidth : Int
  credibility : Int
  background : String
  detailItems : List String
  recommendations : List String
  recommendationsHtml : String
  deriving DecidableEq

/-- The function `displayResults(data)`. -/
def displayResults (data : AnalysisResponse) : ResultsView :=
  let spamScore := data.spam_score
  let recs := recommendations spamScore
  { spamScoreText := spamScore
    meterWidth := spamScore
    credibility := data.credibility
    background := scoreBoxBackground spamScore
    detailItems := detailsLoop data.details []
    recommendations := recs
    recommendationsHtml := "".intercalate (recs.map (fun r => "<li>" ++ r ++ "</li>")) }

/-- The four classification values. -/
inductive SpamLevel where
  | legitimate
  | suspicious
  | likely_spam
  | spam
  deriving DecidableEq

/-- Modelled from the spec: the scoring engine is not part of the repository;
this is the step table of section 4.2, `[0,20)` legitimate, `[20,40)`
suspicious, `[40,70)` likely_spam, `[70,100]` spam, undefined elsewhere. -/
def specSpamLevel (spamScore : Int) : Option SpamLevel :=
  if 0 ≤ spamScore ∧ spamScore < 20 then some SpamLevel.legitimate
  else if 20 ≤ spamScore ∧ spamScore < 40 then some SpamLevel.suspicious
  else if 40 ≤ spamScore ∧ spamScore < 70 then some SpamLevel.likely_spam
  else if 70 ≤ spamScore ∧ spamScore ≤ 100 then some SpamLevel.spam
  else none

/-! ## The analyze form -/

/-- The values of the five form fields when the form is submitted. -/
structure AnalyzeForm where
  title : String
  content : String
  source : String
  url : String
  category : String
  deriving DecidableEq

/-- The object serialised into the body of the request to `/api/analyze`. -/
structure AnalyzeRequest where
  title : String
  content : String
  url : String
  source : String
  category : String
  deriving DecidableEq

/-- The observable actions of the submit handler, in order. -/
inductive Effect where
  | preventDefault
  | alert (msg : String)
  | fetch (url method : String) (body : AnalyzeRequest)
  | showResults (view : ResultsView)
  | resetForm
  | consoleError
  deriving DecidableEq

/-- The submit handler of `analyzeForm` (script.js lines 40-70).  The server is
a parameter: `none` stands for a rejected `fetch` or `json()`. -/
def submitHandler (form : AnalyzeForm) (server : AnalyzeRequest → Option AnalysisResponse) :
    List Effect :=
  let title := trim form.title
  let content := trim form.content
  let source := jsOr (trim form.source) "Manual Entry"
  let url := trim form.url
  let category := form.category
  if title = "" ∨ content = "" then
    [Effect.preventDefault, Effect.alert "Please fill in title and content"]
  else
    let body : AnalyzeRequest :=
      { title := title, content := content, url := url, source := source, category := category }
    match server body with
    | some data =>
        [Effect.preventDefault, Effect.fetch "/api/analyze" "POST" body,
         Effect.showResults (displayResults data), Effect.resetForm]
    | none =>
        [Effect.preventDefault, Effect.fetch "/api/analyze" "POST" body,
         Effect.consoleError, Effect.alert "Error analyzing article"]

/-! ## Pagination -/

/-- One button created by `displayPagination`: its class, its label and the
page number its click handler passes to `loadArticles`. -/
structure PageButton where
  className : String
  textContent : Int
  loads : Int
  deriving DecidableEq

/-- The button created in iteration `i` of the loop of `displayPagination`
(script.js lines 266-269). -/
def pageButton (currentPage i : Int) : PageButton :=
  { className := "page-btn" ++ (if i = currentPage then " active" else "")
    textContent := i
    loads := i }

/-- The loop `for (let i = 1; i <= pages; i++)` (script.js lines 265-271), one
iteration per unit of fuel; `none` when the fuel runs out before the loop
condition fails. -/
def paginationLoop (pages currentPage : Int) : Nat → Int → List PageButton →
    Option (List PageButton)
  | 0, _, _ => none
  | fuel + 1, i, acc =>
      if i ≤ pages then
        paginationLoop pages currentPage fuel (i + 1) (acc ++ [pageButton currentPage i])
      else some acc

/-- The function `displayPagination(pages, currentPage)`. -/
def displayPagination (fuel : Nat) (pages currentPage : Int) : Option (List PageButton) :=
  paginationLoop pages currentPage fuel 1 []

/-- A button carries the class `active`. -/
def PageButton.isActive (b : PageButton) : Bool := b.className == "page-btn active"

/-- One article of a response of `/api/articles`, with the field names the
script reads. -/
structure Article where
  Title : String
  Source : String
  Category : String
  Timestamp : String
  Spam_Level : String
  Spam_Score : Int
  Credibility : Int
  deriving DecidableEq

/-- A response of `/api/articles`. -/
structure ArticlesResponse where
  articles : List Article
  pages : Int
  deriving DecidableEq

/-- One `.article-item` appended by `displayArticles` (script.js lines 231-259).
The time stamp is kept as received; its `toLocaleDateString()` text depends on
the locale of the browser. -/
structure ArticleItem where
  title : String
  source : String
  category : String
  timestamp : String
  badgeClass : String
  levelText : String
  spamScore : Int
  credibility : Int
  deriving DecidableEq

/-- The content of `articlesList` after `displayArticles`. -/
inductive ArticlesView where
  | emptyState
  | items (rows : List ArticleItem)
  deriving DecidableEq

/-- The function `displayArticles(articles)` (script.js lines 218-260). -/
def displayArticles (articles : List Article) : ArticlesView :=
  if articles.length = 0 then ArticlesView.emptyState
  else
    ArticlesView.items (articles.map (fun article =>
      { title := article.Title
        source := article.Source
        category := article.Category
        timestamp := article.Timestamp
        badgeClass := "badge-" ++ replaceFirst article.Spam_Level '_' '-'
        levelText := replaceFirst article.Spam_Level '_' ' '
        spamScore := article.Spam_Score
        credibility := article.Credibility }))

/-- The part of the page that `loadArticles` updates: the global `currentPage`,
the article list and the pagination bar. -/
structure PageState where
  currentPage : Int
  articles : ArticlesView
  pagination : List PageButton
  deriving DecidableEq

/-- The function `loadArticles(page)` (script.js lines 205-216).  `server page`
is the body of the reply to `/api/articles?page=` followed by `page`, `none`
when the request fails: the error is logged and the page is left as it was.
Otherwise the page counter is set, the articles of the reply are drawn and the
pagination bar is rebuilt from the `pages` of the reply with `page` as the
current page. -/
def loadArticles (fuel : Nat) (page : Int) (server : Int → Option ArticlesResponse)
    (st : PageState) : Option PageState :=
  match server page with
  | none => some st
  | some data =>
      match displayPagination fuel data.pages page with
      | none => none
      | some btns =>
          some { currentPage := page
                 articles := displayArticles data.articles
                 pagination := btns }

/-! ## Analytics -/

/-- The field `stats` of a response of `/api/stats`. -/
structure Stats where
  legitimate : Nat
  suspicious : Nat
  likely_spam : Nat
  spam : Nat
  deriving DecidableEq

/-- A response of `/api/stats`. -/
structure StatsResponse where
  stats : Stats
  total_analyzed : Nat
  deriving DecidableEq

/-- One entry of the pie legend; `color` and `label` are `none` where the
script reads past the end of its arrays. -/
structure LegendItem where
  color : Option String
  label : Option String
  value : ℚ
  percentage : JSNum
  deriving DecidableEq

/-- One stop of the conic gradient. -/
structure GradientStop where
  color : Option String
  position : JSNum
  deriving DecidableEq

/-- The percentage `(value / total) * 100` of `displayPieChart`. -/
def piePercentage (value total : ℚ) : JSNum := jsMulPos (jsDiv value total) 100

/-- The first `forEach` of `displayPieChart` (script.js lines 336-356).  The
locals `degrees`, `largeArc` and `isSmall` are never read and are left out; the
percentage is kept as a number instead of its `toFixed(1)` text. -/
def legendLoop (total : ℚ) (labels colors : List String) :
    Nat → List ℚ → List LegendItem → List LegendItem
  | _, [], acc => acc
  | index, value :: rest, acc =>
      let percentage := piePercentage value total
      legendLoop total labels colors (index + 1) rest
        (acc ++ [{ color := colors[index]?, label := labels[index]?
                   value := value, percentage := percentage }])

/-- The second `forEach` of `displayPieChart` (script.js lines 362-368). -/
def gradientLoop (total : ℚ) (colors : List String) :
    Nat → List ℚ → JSNum → List GradientStop → List GradientStop
  | _, [], _, acc => acc
  | index, value :: rest, currentPercent, acc =>
      let percentage := piePercentage value total
      let nextPercent := jsAdd currentPercent percentage
      gradientLoop total colors (index + 1) rest nextPercent
        (acc ++ [{ color := colors[index]?, position := currentPercent },
                 { color := colors[index]?, position := nextPercent }])

/-- What `displayPieChart` draws. -/
structure PieView where
  total : ℚ
  legend : List LegendItem
  gradientStops : List GradientStop
  deriving DecidableEq

/-- The function `displayPieChart(values, labels, colors)`. -/
def displayPieChart (values : List ℚ) (labels colors : List String) : PieView :=
  let total := values.foldl (fun a b => a + b) 0
  { total := total
    legend := legendLoop total labels colors 0 values []
    gradientStops := gradientLoop total colors 0 values (JSNum.fin 0) [] }

/-- One element of the array `data` of `displayBarChart`. -/
structure BarDatum where
  label : String
  value : Nat
  color : String
  deriving DecidableEq

/-- One bar of the bar chart. -/
structure BarItem where
  label : String
  value : Nat
  color : String
  width : JSNum
  deriving DecidableEq

/-- The array `data` of `displayBarChart` (script.js lines 377-382). -/
def barData (stats : Stats) : List BarDatum :=
  [{ label := "Legitimate", value := stats.legitimate, color := "#10b981" },
   { label := "Suspicious", value := stats.suspicious, color := "#f59e0b" },
   { label := "Likely Spam", value := stats.likely_spam, color := "#ef4444" },
   { label := "Spam", value := stats.spam, color := "#dc2626" }]

/-- The value `Math.max(...data.map((d) => d.value), 1)`; counts are natural
numbers, so folding from `0` gives the maximum. -/
def barMaxValue (stats : Stats) : Nat :=
  ((barData stats).map (fun (d : BarDatum) => d.value) ++ [1]).foldl max 0

/-- The function `displayBarChart(stats)`. -/
def displayBarChart (stats : Stats) : List BarItem :=
  let maxValue := barMaxValue stats
  (barData stats).map (fun item =>
    { label := item.label, value := item.value, color := item.color
      width := jsMulPos (jsDiv (item.value : ℚ) (maxValue : ℚ)) 100 })

/-- What `displayStats` writes into the page. -/
structure StatsView where
  totalAnalyzed : Nat
  legitCount : Nat
  suspiciousCount : Nat
  spamCount : Nat
  pie : PieView
  bars : List BarItem
  deriving DecidableEq

/-- The function `displayStats(data)`. -/
def displayStats (data : StatsResponse) : StatsView :=
  let stats := data.stats
  let total := data.total_analyzed
  let chartValues : List ℚ :=
    [(stats.legitimate : ℚ), (stats.suspicious : ℚ), ((stats.likely_spam + stats.spam : Nat) : ℚ)]
  let chartLabels := ["Legitimate", "Suspicious", "Spam"]
  let chartColors := ["#10b981", "#f59e0b", "#ef4444"]
  { totalAnalyzed := total
    legitCount := stats.legitimate
    suspiciousCount := stats.suspicious
    spamCount := stats.spam + stats.likely_spam
    pie := displayPieChart chartValues chartLabels chartColors
    bars := displayBarChart stats }

/-- The function `loadAnalytics()` (script.js lines 293-301): `response` is the
body of the reply of `/api/stats`, `none` when the request fails (the error is
logged and nothing is drawn). -/
def loadAnalytics (response : Option StatsResponse) : Option StatsView :=
  match response with
  | some data => some (displayStats data)
  | none => none

/-- The `DOMContentLoaded` handler (script.js lines 421-423). -/
def domContentLoaded (response : Option StatsResponse) : Option StatsView :=
  loadAnalytics response

/-! ## Statements and closed forms used below -/

/-- The statement of C5 at one snapshot: the pie chart and the bar chart each
show the three buckets Legitimate, Suspicious and Spam, the third with the
value likely_spam + spam. -/
def BothChartsMergeSpam (data : StatsResponse) : Prop :=
  ((displayStats data).pie.legend.map (fun l => (l.label, l.value)) =
      [(some "Legitimate", (data.stats.legitimate : ℚ)),
       (some "Suspicious", (data.stats.suspicious : ℚ)),
       (some "Spam", ((data.stats.likely_spam + data.stats.spam : Nat) : ℚ))]) ∧
  ((displayStats data).bars.map (fun b => (b.label, b.value)) =
      [("Legitimate", data.stats.legitimate),
       ("Suspicious", data.stats.suspicious),
       ("Spam", data.stats.likely_spam + data.stats.spam)])

/-- The stop positions of the gradient in closed form, starting at `c`. -/
def stopPositions (total : ℚ) : List ℚ → ℚ → List ℚ
  | [], _ => []
  | v :: rest, c => c :: (c + v / total * 100) :: stopPositions total rest (c + v / total * 100)

/-! ## Auxiliary lemmas -/

theorem green_ne_amber : greenBackground ≠ amberBackground := by decide
theorem green_ne_red : greenBackground ≠ redBackground := by decide
theorem amber_ne_red : amberBackground ≠ redBackground := by decide

theorem string_mk_eq_empty (cs : List Char) : (String.mk cs = "") ↔ cs = [] := by
  constructor
  · intro h
    have := congrArg String.data h
    simpa using this
  · intro h
    subst h
    rfl

theorem dropWhile_all_iff {α : Type} (p : α → Bool) (l : List α) :
    (∀ x ∈ l.dropWhile p, p x = true) ↔ ∀ x ∈ l, p x = true := by
  induction l with
  | nil => simp
  | cons a t ih =>
    by_cases ha : p a = true
    · simp [List.dropWhile_cons, ha, ih]
    · simp [List.dropWhile_cons, ha]

theorem trimChars_eq_nil_iff (cs : List Char) :
    trimChars cs = [] ↔ ∀ c ∈ cs, isWhiteSpace c = true := by
  unfold trimChars
  rw [List.reverse_eq_nil_iff, List.dropWhile_eq_nil_iff]
  simp only [List.mem_reverse]
  exact dropWhile_all_iff isWhiteSpace cs

theorem trim_eq_empty_iff (s : String) :
    trim s = "" ↔ ∀ c ∈ s.data, isWhiteSpace c = true := by
  unfold trim
  rw [string_mk_eq_empty]
  exact trimChars_eq_nil_iff s.data

theorem jsOr_ne_empty (a b : String) (hb : b ≠ "") : jsOr a b ≠ "" := by
  unfold jsOr
  split
  · exact hb
  · assumption

/-! ## The result panel (C1) -/

/-- C1: for every integer spam score in [0,100], `displayResults` picks the
green background and the two-line recommendation list headed by "This article
appears to be legitimate." exactly on [0,20), the amber background and the
three-line list exactly on [20,40), the red background and the four-line list
exactly on [40,100]; these are the ranges where the spam_level table of the
spec gives legitimate, suspicious, and likely_spam or spam, so the colour band
and the recommendation band always coincide. -/
theorem displayResults_band_matches_table (data : AnalysisResponse)
    (h0 : 0 ≤ data.spam_score) (h100 : data.spam_score ≤ 100) :
    (((displayResults data).background = greenBackground ↔ data.spam_score < 20) ∧
      (((displayResults data).recommendations.length = 2 ∧
          (displayResults data).recommendations.head? =
            some "This article appears to be legitimate.") ↔ data.spam_score < 20) ∧
      (data.spam_score < 20 ↔ specSpamLevel data.spam_score = some SpamLevel.legitimate)) ∧
    (((displayResults data).background = amberBackground ↔
        (20 ≤ data.spam_score ∧ data.spam_score < 40)) ∧
      ((displayResults data).recommendations.length = 3 ↔
        (20 ≤ data.spam_score ∧ data.spam_score < 40)) ∧
      ((20 ≤ data.spam_score ∧ data.spam_score < 40) ↔
        specSpamLevel data.spam_score = some SpamLevel.suspicious)) ∧
    (((displayResults data).background = redBackground ↔ 40 ≤ data.spam_score) ∧
      ((displayResults data).recommendations.length = 4 ↔ 40 ≤ data.spam_score) ∧
      (40 ≤ data.spam_score ↔
        (specSpamLevel data.spam_score = some SpamLevel.likely_spam ∨
          specSpamLevel data.spam_score = some SpamLevel.spam))) := by
  have gne := green_ne_amber
  have gnr := green_ne_red
  have anr := amber_ne_red
  simp only [displayResults, scoreBoxBackground, recommendations, specSpamLevel]
  by_cases h20 : data.spam_score < 20
  · have h40 : data.spam_score < 40 := by omega
    have n20 : ¬ 20 ≤ data.spam_score := by omega
    have n40 : ¬ 40 ≤ data.spam_score := by omega
    simp [h20, h40, h0, n20, n40, gne, gnr]
  · by_cases h40 : data.spam_score < 40
    · have g20 : 20 ≤ data.spam_score := by omega
      have n40 : ¬ 40 ≤ data.spam_score := by omega
      simp [h20, h40, g20, n40, gne.symm, anr]
    · have g20 : 20 ≤ data.spam_score := by omega
      have g40 : 40 ≤ data.spam_score := by omega
      by_cases h70 : data.spam_score < 70
      · simp [h20, h40, g20, g40, h70, gnr.symm, anr.symm]
      · have g70 : 70 ≤ data.spam_score := by omega
        simp [h20, h40, g20, g40, h70, g70, h100, gnr.symm, anr.symm]

theorem displayResults_band_matches_table_witness :
    ((displayResults ⟨40, "likely_spam", 55, []⟩).background = redBackground ↔ (40 : Int) ≤ 40) ∧
      (displayResults ⟨40, "likely_spam", 55, []⟩).recommendations.length = 4 :=
  ⟨(displayResults_band_matches_table ⟨40, "likely_spam", 55, []⟩
      (by decide) (by decide)).2.2.1, by decide⟩

/-! ## The analyze form (C2, C3) -/

/-- C2: the submit handler sends a request (and then only to `/api/analyze`)
if and only if the trimmed title and the trimmed content are both non-empty;
a field is empty after trimming exactly when it holds only white space, and
when either is empty the handler does nothing but alert "Please fill in title
and content": no request, no result panel, no form reset. -/
theorem submit_requests_iff_title_and_content (form : AnalyzeForm)
    (server : AnalyzeRequest → Option AnalysisResponse) :
    ((∃ url method body, Effect.fetch url method body ∈ submitHandler form server) ↔
        (trim form.title ≠ "" ∧ trim form.content ≠ "")) ∧
    (∀ url method body, Effect.fetch url method body ∈ submitHandler form server →
        url = "/api/analyze") ∧
    ((trim form.title = "" ∨ trim form.content = "") ↔
        submitHandler form server =
          [Effect.preventDefault, Effect.alert "Please fill in title and content"]) ∧
    ((trim form.title = "" ∨ trim form.content = "") →
        ∀ e ∈ submitHandler form server,
          (∀ url method body, e ≠ Effect.fetch url method body) ∧
          (∀ view, e ≠ Effect.showResults view) ∧ e ≠ Effect.resetForm) ∧
    ((trim form.title = "" ↔ ∀ c ∈ form.title.data, isWhiteSpace c = true) ∧
      (trim form.content = "" ↔ ∀ c ∈ form.content.data, isWhiteSpace c = true)) := by
  refine ⟨?_, ?_, ?_, ?_, trim_eq_empty_iff _, trim_eq_empty_iff _⟩
  · by_cases h : trim form.title = "" ∨ trim form.content = ""
    · have hn : ¬ (trim form.title ≠ "" ∧ trim form.content ≠ "") := by tauto
      simp [submitHandler, h, hn]
    · have hn : trim form.title ≠ "" ∧ trim form.content ≠ "" := by tauto
      simp only [submitHandler, h, if_false]
      cases server _ <;> simp [hn]
  · intro url method body
    by_cases h : trim form.title = "" ∨ trim form.content = ""
    · simp [submitHandler, h]
    · simp only [submitHandler, h, if_false]
      cases server _ <;> simp <;> intro h1 _ _ <;> exact h1
  · by_cases h : trim form.title = "" ∨ trim form.content = ""
    · simp [submitHandler, h]
    · simp only [submitHandler, h, if_false]
      cases server _ <;> simp
  · intro h e he
    simp only [submitHandler, h, if_true] at he
    simp at he
    rcases he with rfl | rfl <;> simp

theorem submit_requests_iff_title_and_content_witness :
    (trim "  \t " = "" ∨ trim "body" = "") ∧
      submitHandler ⟨"  \t ", "body", "", "", "news"⟩ (fun _ => none) =
        [Effect.preventDefault, Effect.alert "Please fill in title and content"] :=
  ⟨by decide,
   ((submit_requests_iff_title_and_content ⟨"  \t ", "body", "", "", "news"⟩
      (fun _ => none)).2.2.1).mp (by decide)⟩

/-- C3: whenever the submit handler sends a request, the `source` in its body
is "Manual Entry" when the trimmed source field is empty and the trimmed field
otherwise, so it is never the empty string. -/
theorem request_source_defaults_to_manual_entry (form : AnalyzeForm)
    (server : AnalyzeRequest → Option AnalysisResponse) (url method : String)
    (body : AnalyzeRequest) (h : Effect.fetch url method body ∈ submitHandler form server) :
    (trim form.source = "" → body.source = "Manual Entry") ∧
    (trim form.source ≠ "" → body.source = trim form.source) ∧
    body.source ≠ "" := by
  have hsrc : body.source = jsOr (trim form.source) "Manual Entry" := by
    by_cases hv : trim form.title = "" ∨ trim form.content = ""
    · simp [submitHandler, hv] at h
    · simp only [submitHandler, hv, if_false] at h
      cases hs : server _ <;> rw [hs] at h <;> simp at h <;> rw [h.2.2]
  refine ⟨?_, ?_, ?_⟩
  · intro he
    rw [hsrc, jsOr, if_pos he]
  · intro hne
    rw [hsrc, jsOr, if_neg hne]
  · rw [hsrc]
    exact jsOr_ne_empty _ _ (by decide)

theorem request_source_defaults_to_manual_entry_witness :
    Effect.fetch "/api/analyze" "POST" ⟨"T", "C", "", "Manual Entry", "news"⟩ ∈
        submitHandler ⟨" T", "C ", "  ", "", "news"⟩ (fun _ => none) ∧
      (⟨"T", "C", "", "Manual Entry", "news"⟩ : AnalyzeRequest).source ≠ "" :=
  ⟨by decide,
   (request_source_defaults_to_manual_entry ⟨" T", "C ", "  ", "", "news"⟩ (fun _ => none)
      "/api/analyze" "POST" ⟨"T", "C", "", "Manual Entry", "news"⟩ (by decide)).2.2⟩

/-! ## Statistics cards and charts (C4, C5) -/

/-- C4: when the four counts of a statistics response sum to `total_analyzed`,
the three stat cards (legitimate, suspicious, spam + likely_spam) sum to the
displayed total, and the total that `displayPieChart` divides by is
`total_analyzed`. -/
theorem displayStats_cards_sum_to_total (data : StatsResponse)
    (hsum : data.stats.legitimate + data.stats.suspicious + data.stats.likely_spam +
      data.stats.spam = data.total_analyzed) :
    (displayStats data).legitCount = data.stats.legitimate ∧
    (displayStats data).suspiciousCount = data.stats.suspicious ∧
    (displayStats data).spamCount = data.stats.spam + data.stats.likely_spam ∧
    (displayStats data).totalAnalyzed = data.total_analyzed ∧
    (displayStats data).legitCount + (displayStats data).suspiciousCount +
      (displayStats data).spamCount = (displayStats data).totalAnalyzed ∧
    (displayStats data).pie.total = (data.total_analyzed : ℚ) := by
  refine ⟨rfl, rfl, rfl, rfl, ?_, ?_⟩
  · simp only [displayStats]
    omega
  · simp only [displayStats, displayPieChart, List.foldl_cons, List.foldl_nil]
    rw [← hsum]
    push_cast
    ring

theorem displayStats_cards_sum_to_total_witness :
    (3 + 2 + 1 + 4 = 10) ∧
      (displayStats ⟨⟨3, 2, 1, 4⟩, 10⟩).legitCount + (displayStats ⟨⟨3, 2, 1, 4⟩, 10⟩).suspiciousCount +
        (displayStats ⟨⟨3, 2, 1, 4⟩, 10⟩).spamCount = (displayStats ⟨⟨3, 2, 1, 4⟩, 10⟩).totalAnalyzed :=
  ⟨by decide, (displayStats_cards_sum_to_total ⟨⟨3, 2, 1, 4⟩, 10⟩ (by decide)).2.2.2.2.1⟩

/-- C5 fails as stated: for the snapshot with counts 1, 2, 3, 4 the bar chart
has four bars, so the two charts do not both merge the spam buckets. -/
theorem both_charts_merge_spam_counterexample :
    ¬ BothChartsMergeSpam ⟨⟨1, 2, 3, 4⟩, 10⟩ := by
  intro h
  have h2 := congrArg List.length h.2
  simp [displayStats, displayBarChart, barData] at h2

/-- C5, amended: for every statistics snapshot the pie chart shows exactly the
three buckets Legitimate, Suspicious and Spam, the third with the value
likely_spam + spam (three legend entries, three gradient segments), while the
bar chart shows four bars, Legitimate, Suspicious, Likely Spam and Spam, each
with its own count. -/
theorem pie_merges_spam_bar_keeps_four (data : StatsResponse) :
    ((displayStats data).pie.legend.map (fun l => (l.label, l.value)) =
      [(some "Legitimate", (data.stats.legitimate : ℚ)),
       (some "Suspicious", (data.stats.suspicious : ℚ)),
       (some "Spam", ((data.stats.likely_spam + data.stats.spam : Nat) : ℚ))]) ∧
    (displayStats data).pie.gradientStops.length = 2 * 3 ∧
    ((displayStats data).bars.map (fun b => (b.label, b.value)) =
      [("Legitimate", data.stats.legitimate),
       ("Suspicious", data.stats.suspicious),
       ("Likely Spam", data.stats.likely_spam),
       ("Spam", data.stats.spam)]) := by
  refine ⟨?_, ?_, ?_⟩
  · simp [displayStats, displayPieChart, legendLoop]
  · simp [displayStats, displayPieChart, gradientLoop]
  · simp [displayStats, displayBarChart, barData]

/-! ## The evidence list (C6) -/

theorem detailsLoop_eq (entries : List (String × DetailValue)) (acc : List String) :
    detailsLoop entries acc =
      acc ++ (entries.filter (fun e => decide (e.1 ≠ "word_count"))).map
        (fun e => detailHtml e.1 e.2) := by
  induction entries generalizing acc with
  | nil => simp [detailsLoop]
  | cons e rest ih =>
    obtain ⟨key, value⟩ := e
    by_cases hk : key = "word_count"
    · simp [detailsLoop, hk, ih]
    · simp [detailsLoop, hk, ih]

theorem length_filter_ne_of_nodup (keys : List String) (k : String) (hnd : keys.Nodup)
    (hk : k ∈ keys) : (keys.filter (fun x => decide (x ≠ k))).length + 1 = keys.length := by
  induction keys with
  | nil => simp at hk
  | cons a t ih =>
    rw [List.nodup_cons] at hnd
    by_cases hak : a = k
    · subst hak
      have hall : t.filter (fun x => decide (x ≠ a)) = t := by
        rw [List.filter_eq_self]
        intro x hx
        have : x ≠ a := fun h => hnd.1 (h ▸ hx)
        simpa using this
      rw [List.filter_cons_of_neg (by simp), hall, List.length_cons]
    · have hkt : k ∈ t := by
        rcases List.mem_cons.mp hk with h | h
        · exact absurd h.symm hak
        · exact h
      rw [List.filter_cons_of_pos (by simpa using hak), List.length_cons, ih hnd.2 hkt,
        List.length_cons]

theorem length_filter_key_ne (entries : List (String × DetailValue)) (k : String) :
    (entries.filter (fun e => decide (e.1 ≠ k))).length =
      ((entries.map Prod.fst).filter (fun x => decide (x ≠ k))).length := by
  induction entries with
  | nil => rfl
  | cons e rest ih =>
    rw [List.map_cons]
    by_cases h : e.1 = k
    · rw [List.filter_cons_of_neg (by simpa using h), List.filter_cons_of_neg (by simpa using h), ih]
    · rw [List.filter_cons_of_pos (by simpa using h), List.filter_cons_of_pos (by simpa using h),
        List.length_cons, List.length_cons, ih]

theorem detailHtml_list (key : String) (items : List String) :
    detailHtml key (DetailValue.list items) =
      "<div class=\"detail-item\"><div class=\"detail-category\">" ++
        replaceFirst key '_' ' ' ++ "</div><div class=\"detail-items\">" ++
        ", ".intercalate items ++ "</div></div>" := by
  have e1 : ("<div class=\"detail-item\"><div class=\"detail-category\">" : String) =
      "<div class=\"detail-item\">" ++ "<div class=\"detail-category\">" := by decide
  have e2 : ("</div><div class=\"detail-items\">" : String) =
      "</div>" ++ "<div class=\"detail-items\">" := by decide
  have e3 : ("</div></div>" : String) = "</div>" ++ "</div>" := by decide
  rw [e1, e2, e3]
  simp only [detailHtml, String.append_assoc]

theorem detailHtml_true (key : String) :
    detailHtml key (DetailValue.bool true) =
      "<div class=\"detail-item\"><div class=\"detail-category\">" ++
        replaceFirst key '_' ' ' ++ "</div><div class=\"detail-items\">Detected</div></div>" := by
  have e1 : ("<div class=\"detail-item\"><div class=\"detail-category\">" : String) =
      "<div class=\"detail-item\">" ++ "<div class=\"detail-category\">" := by decide
  have e2 : ("</div><div class=\"detail-items\">Detected</div></div>" : String) =
      "</div>" ++ ("<div class=\"detail-items\">Detected</div>" ++ "</div>") := by decide
  rw [e1, e2]
  simp only [detailHtml, String.append_assoc]

theorem detailHtml_other (key : String) (value : DetailValue)
    (hl : ∀ items, value ≠ DetailValue.list items) (hb : value ≠ DetailValue.bool true) :
    detailHtml key value =
      "<div class=\"detail-item\"><div class=\"detail-category\">" ++
        replaceFirst key '_' ' ' ++ "</div></div>" := by
  have e1 : ("<div class=\"detail-item\"><div class=\"detail-category\">" : String) =
      "<div class=\"detail-item\">" ++ "<div class=\"detail-category\">" := by decide
  have e3 : ("</div></div>" : String) = "</div>" ++ "</div>" := by decide
  rw [e1, e3]
  cases value with
  | list items => exact absurd rfl (hl items)
  | bool b =>
    cases b with
    | true => exact absurd rfl hb
    | false => simp only [detailHtml, String.append_assoc]
  | num n => simp only [detailHtml, String.append_assoc]
  | str t => simp only [detailHtml, String.append_assoc]
  | null => simp only [detailHtml, String.append_assoc]

/-- C6: `displayResults` appends one detail item for each entry of `details`
whose key is not "word_count", in the order of the entries, and nothing for
"word_count"; with distinct keys and "word_count" present that is one item
fewer than there are keys.  The item of a list shows its elements joined by
", ", the item of `true` shows "Detected", and the item of any other value has
the category heading only. -/
theorem displayResults_detail_items (data : AnalysisResponse) :
    ((displayResults data).detailItems =
        (data.details.filter (fun e => decide (e.1 ≠ "word_count"))).map
          (fun e => detailHtml e.1 e.2)) ∧
    ((data.details.map Prod.fst).Nodup → "word_count" ∈ data.details.map Prod.fst →
        (displayResults data).detailItems.length + 1 = data.details.length) ∧
    ("word_count" ∉ data.details.map Prod.fst →
        (displayResults data).detailItems.length = data.details.length) ∧
    (∀ key items, detailHtml key (DetailValue.list items) =
        "<div class=\"detail-item\"><div class=\"detail-category\">" ++
          replaceFirst key '_' ' ' ++ "</div><div class=\"detail-items\">" ++
          ", ".intercalate items ++ "</div></div>") ∧
    (∀ key, detailHtml key (DetailValue.bool true) =
        "<div class=\"detail-item\"><div class=\"detail-category\">" ++
          replaceFirst key '_' ' ' ++ "</div><div class=\"detail-items\">Detected</div></div>") ∧
    (∀ key value, (∀ items, value ≠ DetailValue.list items) → value ≠ DetailValue.bool true →
        detailHtml key value =
          "<div class=\"detail-item\"><div class=\"detail-category\">" ++
            replaceFirst key '_' ' ' ++ "</div></div>") := by
  have hitems : (displayResults data).detailItems =
      (data.details.filter (fun e => decide (e.1 ≠ "word_count"))).map
        (fun e => detailHtml e.1 e.2) := by
    simp [displayResults, detailsLoop_eq]
  refine ⟨hitems, ?_, ?_, ?_, ?_, ?_⟩
  · intro hnd hmem
    rw [hitems, List.length_map, length_filter_key_ne,
      length_filter_ne_of_nodup _ _ hnd hmem, List.length_map]
  · intro hnot
    rw [hitems, List.length_map]
    congr 1
    rw [List.filter_eq_self]
    intro e he
    have : e.1 ≠ "word_count" := fun h => hnot (h ▸ List.mem_map_of_mem Prod.fst he)
    simpa using this
  · exact detailHtml_list
  · exact detailHtml_true
  · exact detailHtml_other

theorem displayResults_detail_items_witness :
    (displayResults ⟨45, "likely_spam", 50,
        [("clickbait_phrases", DetailValue.list ["shocking", "you will not believe"]),
         ("word_count", DetailValue.num 12),
         ("excessive_caps", DetailValue.bool true),
         ("short_content", DetailValue.bool false)]⟩).detailItems.length + 1 = 4 :=
  (displayResults_detail_items ⟨45, "likely_spam", 50,
        [("clickbait_phrases", DetailValue.list ["shocking", "you will not believe"]),
         ("word_count", DetailValue.num 12),
         ("excessive_caps", DetailValue.bool true),
         ("short_content", DetailValue.bool false)]⟩).2.1 (by decide) (by decide)

example : (displayResults ⟨45, "likely_spam", 50,
        [("clickbait_phrases", DetailValue.list ["shocking", "wow"]),
         ("word_count", DetailValue.num 12),
         ("excessive_caps", DetailValue.bool true),
         ("short_content", DetailValue.bool false)]⟩).detailItems =
    ["<div class=\"detail-item\"><div class=\"detail-category\">clickbait phrases</div><div class=\"detail-items\">shocking, wow</div></div>",
     "<div class=\"detail-item\"><div class=\"detail-category\">excessive caps</div><div class=\"detail-items\">Detected</div></div>",
     "<div class=\"detail-item\"><div class=\"detail-category\">short content</div></div>"] := by decide

/-! ## Pagination (C7) -/

theorem pageButton_isActive (currentPage i : Int) :
    (pageButton currentPage i).isActive = true ↔ i = currentPage := by
  unfold pageButton PageButton.isActive
  by_cases h : i = currentPage
  · simp only [h, if_true]
    decide
  · simp only [h, if_false]
    decide

theorem paginationLoop_eq (pages currentPage : Int) (fuel : Nat) (i : Int)
    (acc : List PageButton) (hfuel : (pages + 1 - i).toNat < fuel) :
    paginationLoop pages currentPage fuel i acc =
      some (acc ++ (List.range (pages + 1 - i).toNat).map
        (fun (k : Nat) => pageButton currentPage (i + (k : Int)))) := by
  induction fuel generalizing i acc with
  | zero => omega
  | succ n ih =>
    unfold paginationLoop
    by_cases hi : i ≤ pages
    · have hn : (pages + 1 - (i + 1)).toNat < n := by omega
      have hs : (pages + 1 - i).toNat = (pages + 1 - (i + 1)).toNat + 1 := by omega
      rw [if_pos hi, ih (i + 1) _ hn, hs, List.range_succ_eq_map, List.map_cons, List.map_map,
        List.append_assoc]
      congr 2
      · rw [List.singleton_append]
        congr 1
        · simp [pageButton]
        · apply List.map_congr_left
          intro k _
          simp only [Function.comp, Nat.succ_eq_add_one]
          congr 1
          push_cast
          ring
    · have hz : (pages + 1 - i).toNat = 0 := by omega
      rw [if_neg hi, hz]
      simp

theorem displayPagination_eq (fuel : Nat) (pages currentPage : Int) (hfuel : pages.toNat < fuel) :
    displayPagination fuel pages currentPage =
      some ((List.range pages.toNat).map (fun (k : Nat) => pageButton currentPage (1 + (k : Int)))) := by
  unfold displayPagination
  have h : (pages + 1 - 1).toNat = pages.toNat := by simp
  rw [paginationLoop_eq pages currentPage fuel 1 [] (by omega), h, List.nil_append]

theorem active_count_range (currentPage : Int) (n : Nat) :
    (((List.range n).map (fun (k : Nat) => pageButton currentPage (1 + (k : Int)))).filter
        PageButton.isActive).length =
      if 1 ≤ currentPage ∧ currentPage ≤ (n : Int) then 1 else 0 := by
  induction n with
  | zero =>
    have h0 : ¬ (1 ≤ currentPage ∧ currentPage ≤ ((0 : Nat) : Int)) := by omega
    rw [if_neg h0]
    rfl
  | succ m ih =>
    rw [List.range_succ, List.map_append, List.filter_append, List.length_append, ih,
      List.map_singleton]
    by_cases hm : (1 + (m : Int)) = currentPage
    · have ha := (pageButton_isActive currentPage (1 + (m : Int))).mpr hm
      rw [List.filter_cons_of_pos ha]
      have h1 : ¬ (1 ≤ currentPage ∧ currentPage ≤ (m : Int)) := by omega
      have h2 : 1 ≤ currentPage ∧ currentPage ≤ ((m + 1 : Nat) : Int) := by
        push_cast
        omega
      rw [if_neg h1, if_pos h2]
      rfl
    · have ha : ¬ (pageButton currentPage (1 + (m : Int))).isActive = true :=
        fun h => hm ((pageButton_isActive currentPage (1 + (m : Int))).mp h)
      rw [List.filter_cons_of_neg ha]
      by_cases h1 : 1 ≤ currentPage ∧ currentPage ≤ (m : Int)
      · have h2 : 1 ≤ currentPage ∧ currentPage ≤ ((m + 1 : Nat) : Int) := by
          push_cast
          omega
        rw [if_pos h1, if_pos h2]
        rfl
      · have h2 : ¬ (1 ≤ currentPage ∧ currentPage ≤ ((m + 1 : Nat) : Int)) := by
          push_cast
          omega
        rw [if_neg h1, if_neg h2]
        rfl

/-- C7: for all integers `pages` and `currentPage`, `displayPagination`
terminates (any fuel above `max(pages, 0)` suffices) and creates exactly
`max(pages, 0)` buttons, labelled 1, 2, ..., `pages` in ascending order.  The
click handler of the button labelled `i` calls `loadArticles(i)`: it requests
page `i`, and when the reply arrives it makes `i` the current page, draws the
articles of the reply and rebuilds the pagination bar from the `pages` of the
reply, with the button labelled `i` the active one; when the request fails the
page is left unchanged.  A button is active exactly when its label is
`currentPage`, so one button is active when `1 <= currentPage <= pages` and
none otherwise. -/
theorem displayPagination_buttons (pages currentPage : Int) (fuel : Nat)
    (hfuel : pages.toNat < fuel) :
    ∃ btns, displayPagination fuel pages currentPage = some btns ∧
      (btns.length : Int) = max pages 0 ∧
      btns.map (fun b => b.textContent) = (List.range pages.toNat).map (fun (k : Nat) => (k : Int) + 1) ∧
      (∀ b ∈ btns, b.loads = b.textContent) ∧
      (∀ b ∈ btns, ∀ (server : Int → Option ArticlesResponse) (st : PageState)
          (reply : ArticlesResponse) (fuel2 : Nat),
          server b.textContent = some reply → reply.pages.toNat < fuel2 →
          ∃ bar, displayPagination fuel2 reply.pages b.textContent = some bar ∧
            loadArticles fuel2 b.loads server st =
              some { currentPage := b.textContent
                     articles := displayArticles reply.articles
                     pagination := bar } ∧
            bar.map (fun c => c.textContent) =
              (List.range reply.pages.toNat).map (fun (k : Nat) => (k : Int) + 1) ∧
            (∀ c ∈ bar, c.isActive = true ↔ c.textContent = b.textContent)) ∧
      (∀ b ∈ btns, ∀ (server : Int → Option ArticlesResponse) (st : PageState) (fuel2 : Nat),
          server b.textContent = none → loadArticles fuel2 b.loads server st = some st) ∧
      (∀ b ∈ btns, b.isActive = true ↔ b.textContent = currentPage) ∧
      (btns.filter PageButton.isActive).length =
        (if 1 ≤ currentPage ∧ currentPage ≤ pages then 1 else 0) := by
  have hlabels : ∀ (n : Nat) (cp : Int),
      ((List.range n).map (fun (k : Nat) => pageButton cp (1 + (k : Int)))).map
          (fun b => b.textContent) =
        (List.range n).map (fun (k : Nat) => (k : Int) + 1) := by
    intro n cp
    rw [List.map_map]
    apply List.map_congr_left
    intro k _
    simp only [Function.comp, pageButton]
    ring
  have hactive : ∀ (n : Nat) (cp : Int),
      ∀ c ∈ (List.range n).map (fun (k : Nat) => pageButton cp (1 + (k : Int))),
        (c.isActive = true ↔ c.textContent = cp) := by
    intro n cp c hc
    obtain ⟨k, _, rfl⟩ := List.mem_map.mp hc
    exact pageButton_isActive cp (1 + (k : Int))
  refine ⟨_, displayPagination_eq fuel pages currentPage hfuel, ?_, hlabels _ _, ?_, ?_, ?_,
    hactive _ _, ?_⟩
  · rw [List.length_map, List.length_range]
    omega
  · intro b hb
    obtain ⟨k, _, rfl⟩ := List.mem_map.mp hb
    rfl
  · intro b hb server st reply fuel2 hp hf
    obtain ⟨k, _, rfl⟩ := List.mem_map.mp hb
    have hbar := displayPagination_eq fuel2 reply.pages
      (pageButton currentPage (1 + (k : Int))).textContent hf
    have hp2 : server (pageButton currentPage (1 + (k : Int))).loads = some reply := hp
    refine ⟨_, hbar, ?_, hlabels _ _, hactive _ _⟩
    unfold loadArticles
    rw [hp2]
    have hbar2 : displayPagination fuel2 reply.pages
        (pageButton currentPage (1 + (k : Int))).loads = _ := hbar
    simp only [hbar2]
    rfl
  · intro b hb server st fuel2 hp
    obtain ⟨k, _, rfl⟩ := List.mem_map.mp hb
    have hp2 : server (pageButton currentPage (1 + (k : Int))).loads = none := hp
    unfold loadArticles
    rw [hp2]
  · rw [active_count_range]
    by_cases h : 1 ≤ currentPage ∧ currentPage ≤ pages
    · have h2 : 1 ≤ currentPage ∧ currentPage ≤ ((pages.toNat : Nat) : Int) := by omega
      rw [if_pos h, if_pos h2]
    · have h2 : ¬ (1 ≤ currentPage ∧ currentPage ≤ ((pages.toNat : Nat) : Int)) := by omega
      rw [if_neg h, if_neg h2]

theorem displayPagination_buttons_witness :
    (3 : Int).toNat < 4 ∧
      ∃ btns, displayPagination 4 3 2 = some btns ∧
        (btns.length : Int) = max 3 0 ∧
        btns.map (fun b => b.textContent) = (List.range (3 : Int).toNat).map (fun (k : Nat) => (k : Int) + 1) ∧
        (∀ b ∈ btns, b.loads = b.textContent) ∧
        (∀ b ∈ btns, ∃ bar, displayPagination 6 5 b.textContent = some bar ∧
          loadArticles 6 b.loads (fun _ => some ⟨[], 5⟩) ⟨2, ArticlesView.items [], []⟩ =
            some { currentPage := b.textContent
                   articles := displayArticles []
                   pagination := bar }) ∧
        (btns.filter PageButton.isActive).length =
          (if (1 : Int) ≤ 2 ∧ (2 : Int) ≤ 3 then 1 else 0) :=
  ⟨by decide,
   match displayPagination_buttons 3 2 4 (by decide) with
   | ⟨btns, h⟩ =>
     ⟨btns, h.1, h.2.1, h.2.2.1, h.2.2.2.1,
      fun b hb =>
        match h.2.2.2.2.1 b hb (fun _ => some ⟨[], 5⟩) ⟨2, ArticlesView.items [], []⟩
            ⟨[], 5⟩ 6 rfl (by decide) with
        | ⟨bar, h1, h2, _⟩ => ⟨bar, h1, h2⟩,
      h.2.2.2.2.2.2.2⟩⟩

/-! ## The bar chart (C10) -/

theorem barMaxValue_eq (stats : Stats) :
    barMaxValue stats =
      max (max (max (max stats.legitimate stats.suspicious) stats.likely_spam) stats.spam) 1 := by
  simp [barMaxValue, barData]

theorem bar_width_of_le (v m : Nat) (hm : 1 ≤ m) (hv : v ≤ m) :
    jsMulPos (jsDiv (v : ℚ) (m : ℚ)) 100 = JSNum.fin ((v : ℚ) / (m : ℚ) * 100) ∧
    0 ≤ (v : ℚ) / (m : ℚ) * 100 ∧ (v : ℚ) / (m : ℚ) * 100 ≤ 100 ∧
    ((v : ℚ) / (m : ℚ) * 100 = 100 ↔ v = m) := by
  have hmq : (0 : ℚ) < (m : ℚ) := by exact_mod_cast hm
  have hvq : (v : ℚ) ≤ (m : ℚ) := by exact_mod_cast hv
  have hv0 : (0 : ℚ) ≤ (v : ℚ) := by exact_mod_cast Nat.zero_le v
  have hle : (v : ℚ) / (m : ℚ) ≤ 1 := (div_le_one hmq).mpr hvq
  refine ⟨?_, ?_, ?_, ?_⟩
  · simp [jsDiv, jsMulPos, ne_of_gt hmq]
  · positivity
  · linarith
  · constructor
    · intro h
      have h1 : (v : ℚ) / (m : ℚ) = 1 := by linarith
      have h2 : (v : ℚ) = (m : ℚ) := by
        rw [div_eq_iff (ne_of_gt hmq)] at h1
        linarith
      exact_mod_cast h2
    · intro h
      rw [h, div_self (ne_of_gt hmq)]
      norm_num

/-- C10: for every statistics snapshot the divisor of `displayBarChart`,
`max(legitimate, suspicious, likely_spam, spam, 1)`, is at least 1, so no bar
width is a division by zero; every width `value / maxValue * 100` is a finite
number in [0,100]; a width is 100 exactly when the count of the bar equals the
largest count and that count is at least 1; and when all counts are 0 every
width is 0. -/
theorem displayBarChart_widths (stats : Stats) :
    1 ≤ barMaxValue stats ∧
    barMaxValue stats =
      max (max (max (max stats.legitimate stats.suspicious) stats.likely_spam) stats.spam) 1 ∧
    (displayBarChart stats).map (fun b => b.value) =
      [stats.legitimate, stats.suspicious, stats.likely_spam, stats.spam] ∧
    ∀ b ∈ displayBarChart stats,
      ∃ q : ℚ, b.width = JSNum.fin q ∧ q = (b.value : ℚ) / (barMaxValue stats : ℚ) * 100 ∧
        0 ≤ q ∧ q ≤ 100 ∧
        (q = 100 ↔
          (b.value =
              max (max (max stats.legitimate stats.suspicious) stats.likely_spam) stats.spam ∧
            1 ≤ max (max (max stats.legitimate stats.suspicious) stats.likely_spam) stats.spam)) ∧
        ((stats.legitimate = 0 ∧ stats.suspicious = 0 ∧ stats.likely_spam = 0 ∧ stats.spam = 0) →
          q = 0) := by
  have hmax := barMaxValue_eq stats
  have h1 : 1 ≤ barMaxValue stats := by
    rw [hmax]
    exact le_max_right _ _
  refine ⟨h1, hmax, ?_, ?_⟩
  · simp [displayBarChart, barData]
  · intro b hb
    have hval : b.width = jsMulPos (jsDiv (b.value : ℚ) (barMaxValue stats : ℚ)) 100 ∧
        (b.value = stats.legitimate ∨ b.value = stats.suspicious ∨
          b.value = stats.likely_spam ∨ b.value = stats.spam) := by
      simp only [displayBarChart, barData, List.map_cons, List.map_nil, List.mem_cons,
        List.mem_singleton, List.not_mem_nil, or_false] at hb
      rcases hb with rfl | rfl | rfl | rfl <;> simp
    obtain ⟨hw, hmem⟩ := hval
    have hle : b.value ≤ barMaxValue stats := by
      rw [hmax]
      rcases hmem with h | h | h | h <;> rw [h] <;> simp
    obtain ⟨e1, e2, e3, e4⟩ := bar_width_of_le b.value (barMaxValue stats) h1 hle
    refine ⟨_, hw.trans e1, rfl, e2, e3, ?_, ?_⟩
    · rw [e4, hmax]
      constructor
      · intro h
        omega
      · intro h
        omega
    · rintro ⟨ha, hb2, hc, hd⟩
      have hz : b.value = 0 := by
        rcases hmem with h | h | h | h <;> rw [h] <;> assumption
      rw [hz]
      simp

/-! ## The pie chart (C8, C9) -/

theorem foldl_add_eq_sum (values : List ℚ) (init : ℚ) :
    values.foldl (fun a b => a + b) init = init + values.sum := by
  induction values generalizing init with
  | nil => simp
  | cons v rest ih =>
    rw [List.foldl_cons, ih, List.sum_cons]
    ring

theorem pie_total_eq_sum (values : List ℚ) (labels colors : List String) :
    (displayPieChart values labels colors).total = values.sum := by
  simp [displayPieChart, foldl_add_eq_sum]

theorem piePercentage_of_ne_zero (v total : ℚ) (ht : total ≠ 0) :
    piePercentage v total = JSNum.fin (v / total * 100) := by
  simp [piePercentage, jsDiv, jsMulPos, ht]

theorem piePercentage_zero_zero : piePercentage 0 0 = JSNum.nan := by
  simp [piePercentage, jsDiv, jsMulPos]

theorem piePercentage_isFinite_iff (v total : ℚ) :
    (piePercentage v total).isFinite = true ↔ total ≠ 0 := by
  by_cases ht : total = 0
  · subst ht
    by_cases hv : v = 0
    · simp [piePercentage, jsDiv, jsMulPos, JSNum.isFinite, hv]
    · by_cases hp : 0 < v
      · simp [piePercentage, jsDiv, jsMulPos, JSNum.isFinite, hv, hp]
      · simp [piePercentage, jsDiv, jsMulPos, JSNum.isFinite, hv, hp]
  · simp [piePercentage_of_ne_zero v total ht, JSNum.isFinite, ht]

theorem legendLoop_percentages (total : ℚ) (labels colors : List String) (index : Nat)
    (values : List ℚ) (acc : List LegendItem) :
    (legendLoop total labels colors index values acc).map (fun l => (l.value, l.percentage)) =
      acc.map (fun l => (l.value, l.percentage)) ++
        values.map (fun v => (v, piePercentage v total)) := by
  induction values generalizing index acc with
  | nil => simp [legendLoop]
  | cons v rest ih =>
    simp [legendLoop, ih]

theorem gradientLoop_positions (total : ℚ) (ht : total ≠ 0) (colors : List String) (index : Nat)
    (values : List ℚ) (c : ℚ) (acc : List GradientStop) :
    (gradientLoop total colors index values (JSNum.fin c) acc).map (fun g => g.position) =
      acc.map (fun g => g.position) ++ (stopPositions total values c).map JSNum.fin := by
  induction values generalizing index c acc with
  | nil => simp [gradientLoop, stopPositions]
  | cons v rest ih =>
    simp only [gradientLoop, piePercentage_of_ne_zero v total ht, jsAdd]
    rw [ih]
    simp [stopPositions]

theorem stopPositions_length (total : ℚ) (values : List ℚ) (c : ℚ) :
    (stopPositions total values c).length = 2 * values.length := by
  induction values generalizing c with
  | nil => rfl
  | cons v rest ih =>
    simp only [stopPositions, List.length_cons, ih]
    ring

theorem stopPositions_get (total : ℚ) (values : List ℚ) (c : ℚ) (i : Nat)
    (hi : i < values.length) :
    (stopPositions total values c)[2 * i]? = some (c + (values.take i).sum / total * 100) ∧
    (stopPositions total values c)[2 * i + 1]? =
      some (c + (values.take i).sum / total * 100 + values[i] / total * 100) := by
  induction values generalizing c i with
  | nil => simp at hi
  | cons v rest ih =>
    cases i with
    | zero => simp [stopPositions]
    | succ k =>
      have hk : k < rest.length := by simpa using hi
      have e1 : 2 * (k + 1) = (2 * k + 1) + 1 := by ring
      have e2 : 2 * (k + 1) + 1 = ((2 * k + 1) + 1) + 1 := by ring
      obtain ⟨h1, h2⟩ := ih (c + v / total * 100) k hk
      constructor
      · rw [e1]
        simp only [stopPositions, List.getElem?_cons_succ, h1, List.take_succ_cons, List.sum_cons]
        congr 1
        ring
      · rw [e2]
        simp only [stopPositions, List.getElem?_cons_succ, h2, List.take_succ_cons, List.sum_cons,
          List.getElem_cons_succ]
        congr 1
        ring

theorem stopPositions_ge (total : ℚ) (ht : 0 < total) (values : List ℚ)
    (hnn : ∀ v ∈ values, 0 ≤ v) (c : ℚ) : ∀ x ∈ stopPositions total values c, c ≤ x := by
  induction values generalizing c with
  | nil => simp [stopPositions]
  | cons v rest ih =>
    have hv : 0 ≤ v / total * 100 := by
      have := hnn v (List.mem_cons_self v rest)
      positivity
    intro x hx
    simp only [stopPositions, List.mem_cons] at hx
    rcases hx with rfl | rfl | hx
    · exact le_refl _
    · linarith
    · have := ih (fun w hw => hnn w (List.mem_cons_of_mem v hw)) _ x hx
      linarith

theorem stopPositions_pairwise (total : ℚ) (ht : 0 < total) (values : List ℚ)
    (hnn : ∀ v ∈ values, 0 ≤ v) (c : ℚ) :
    List.Pairwise (fun a b => a ≤ b) (stopPositions total values c) := by
  induction values generalizing c with
  | nil => simp [stopPositions]
  | cons v rest ih =>
    have hv : 0 ≤ v / total * 100 := by
      have := hnn v (List.mem_cons_self v rest)
      positivity
    have hrest : ∀ w ∈ rest, 0 ≤ w := fun w hw => hnn w (List.mem_cons_of_mem v hw)
    have hge := stopPositions_ge total ht rest hrest (c + v / total * 100)
    simp only [stopPositions, List.pairwise_cons, List.mem_cons]
    refine ⟨?_, ?_, ih hrest _⟩
    · intro x hx
      rcases hx with rfl | hx
      · linarith
      · have := hge x hx
        linarith
    · exact hge

theorem stopPositions_getLast (total : ℚ) (values : List ℚ) (hne : values ≠ []) (c : ℚ) :
    (stopPositions total values c).getLast? = some (c + values.sum / total * 100) := by
  induction values generalizing c with
  | nil => exact absurd rfl hne
  | cons v rest ih =>
    cases rest with
    | nil => simp [stopPositions]
    | cons w rest2 =>
      have h := ih (List.cons_ne_nil w rest2) (c + v / total * 100)
      rw [stopPositions]
      rw [stopPositions] at h ⊢
      simp only [List.getLast?_cons_cons] at h ⊢
      rw [h, List.sum_cons, List.sum_cons, List.sum_cons]
      congr 1
      ring

theorem sum_map_percent (total : ℚ) (values : List ℚ) :
    (values.map (fun v => v / total * 100)).sum = values.sum / total * 100 := by
  induction values with
  | nil => simp
  | cons v rest ih =>
    rw [List.map_cons, List.sum_cons, ih, List.sum_cons]
    ring

/-- C8: for `n` non-negative counts with positive sum, in exact rational
arithmetic, `displayPieChart` builds `2n` gradient stops, all finite: the first
is at 0, the stops `2i` and `2i+1` delimit segment `i`, which ends
`value_i / total * 100` after its start, segment `i+1` starts where segment
`i` ends, the positions never decrease and the last one is exactly 100; the
legend percentages are finite and sum to exactly 100. -/
theorem displayPieChart_segments (values : List ℚ) (labels colors : List String)
    (hnn : ∀ v ∈ values, 0 ≤ v) (hpos : 0 < values.sum) :
    ∃ qs ps : List ℚ,
      (displayPieChart values labels colors).gradientStops.map (fun g => g.position) =
        qs.map JSNum.fin ∧
      (displayPieChart values labels colors).gradientStops.length = 2 * values.length ∧
      qs[0]? = some 0 ∧
      (∀ i (hi : i < values.length), ∃ start : ℚ,
        qs[2 * i]? = some start ∧
        qs[2 * i + 1]? = some (start + values[i] / values.sum * 100)) ∧
      (∀ i, i + 1 < values.length → qs[2 * (i + 1)]? = qs[2 * i + 1]?) ∧
      List.Pairwise (fun a b => a ≤ b) qs ∧
      qs.getLast? = some 100 ∧
      (displayPieChart values labels colors).legend.map (fun l => l.percentage) =
        ps.map JSNum.fin ∧
      ps = values.map (fun v => v / values.sum * 100) ∧
      ps.sum = 100 := by
  have ht : values.sum ≠ 0 := ne_of_gt hpos
  have hne : values ≠ [] := by
    intro h
    rw [h] at hpos
    simp at hpos
  have hlen : 0 < values.length := List.length_pos.mpr hne
  have hstops : (displayPieChart values labels colors).gradientStops.map (fun g => g.position) =
      (stopPositions values.sum values 0).map JSNum.fin := by
    have h := gradientLoop_positions values.sum ht colors 0 values 0 []
    simpa [displayPieChart, foldl_add_eq_sum] using h
  refine ⟨stopPositions values.sum values 0, values.map (fun v => v / values.sum * 100),
    hstops, ?_, ?_, ?_, ?_, ?_, ?_, ?_, rfl, ?_⟩
  · have h := congrArg List.length hstops
    rw [List.length_map, List.length_map, stopPositions_length] at h
    exact h
  · have h := (stopPositions_get values.sum values 0 0 hlen).1
    simpa using h
  · intro i hi
    obtain ⟨h1, h2⟩ := stopPositions_get values.sum values 0 i hi
    exact ⟨_, h1, h2⟩
  · intro i hi
    have hi0 : i < values.length := by omega
    rw [(stopPositions_get values.sum values 0 (i + 1) hi).1,
      (stopPositions_get values.sum values 0 i hi0).2]
    congr 1
    rw [List.sum_take_succ values i hi0]
    ring
  · exact stopPositions_pairwise values.sum hpos values hnn 0
  · rw [stopPositions_getLast values.sum values hne 0, div_self ht]
    norm_num
  · have h := legendLoop_percentages values.sum labels colors 0 values []
    have h2 := congrArg (List.map Prod.snd) h
    simp only [List.map_map, List.map_nil, List.nil_append] at h2
    rw [List.map_map]
    simp only [displayPieChart, foldl_add_eq_sum, zero_add]
    refine Eq.trans (by exact h2) ?_
    apply List.map_congr_left
    intro v _
    simp only [Function.comp]
    exact piePercentage_of_ne_zero v values.sum ht
  · rw [sum_map_percent, div_self ht]
    norm_num

theorem displayPieChart_segments_witness :
    (∀ v ∈ ([1, 1, 2] : List ℚ), 0 ≤ v) ∧ 0 < ([1, 1, 2] : List ℚ).sum ∧
      ∃ qs : List ℚ,
        (displayPieChart [1, 1, 2] ["Legitimate", "Suspicious", "Spam"]
            ["#10b981", "#f59e0b", "#ef4444"]).gradientStops.map (fun g => g.position) =
          qs.map JSNum.fin ∧
        qs.getLast? = some 100 :=
  have h1 : ∀ v ∈ ([1, 1, 2] : List ℚ), 0 ≤ v := by
    intro v hv
    simp only [List.mem_cons, List.mem_singleton, List.not_mem_nil, or_false] at hv
    rcases hv with rfl | rfl | rfl <;> norm_num
  have h2 : 0 < ([1, 1, 2] : List ℚ).sum := by norm_num
  match displayPieChart_segments [1, 1, 2] ["Legitimate", "Suspicious", "Spam"]
      ["#10b981", "#f59e0b", "#ef4444"] h1 h2 with
  | ⟨qs, _, h⟩ => ⟨h1, h2, qs, h.1, h.2.2.2.2.2.2.1⟩

theorem eq_zero_of_sum_eq_zero (values : List ℚ) (hnn : ∀ v ∈ values, 0 ≤ v)
    (hsum : values.sum = 0) : ∀ v ∈ values, v = 0 := by
  induction values with
  | nil => simp
  | cons w rest ih =>
    have hrest : ∀ v ∈ rest, 0 ≤ v := fun v hv => hnn v (List.mem_cons_of_mem w hv)
    have hw : 0 ≤ w := hnn w (List.mem_cons_self w rest)
    have hs : 0 ≤ rest.sum := List.sum_nonneg hrest
    rw [List.sum_cons] at hsum
    have hw0 : w = 0 := by linarith
    have hr0 : rest.sum = 0 := by linarith
    intro v hv
    rcases List.mem_cons.mp hv with rfl | hv
    · exact hw0
    · exact ih hrest hr0 v hv

theorem legend_entry (values : List ℚ) (labels colors : List String) (l : LegendItem)
    (hl : l ∈ (displayPieChart values labels colors).legend) :
    l.value ∈ values ∧ l.percentage = piePercentage l.value values.sum := by
  have h := legendLoop_percentages values.sum labels colors 0 values []
  have hm : (l.value, l.percentage) ∈
      ((displayPieChart values labels colors).legend.map (fun l => (l.value, l.percentage))) :=
    List.mem_map_of_mem (fun l => (l.value, l.percentage)) hl
  simp only [displayPieChart, foldl_add_eq_sum, zero_add] at hm
  rw [h] at hm
  simp only [List.map_nil, List.nil_append, List.mem_map, Prod.mk.injEq] at hm
  obtain ⟨v, hv, h1, h2⟩ := hm
  subst h1
  exact ⟨hv, h2.symm⟩

/-- C9: `displayPieChart` divides each value by the sum of the values without
a guard.  For non-negative counts, each percentage it computes is a finite
number if and only if the sum is positive (so, for a non-empty list, all of
them are finite exactly when the sum is positive); when the sum is 0 each
percentage is the quotient 0/0, which is `NaN`.  This is the case for the
all-zero snapshot of an empty repository drawn by the `DOMContentLoaded`
handler through `loadAnalytics` and `displayStats`. -/
theorem displayPieChart_percentages_defined_iff (values : List ℚ) (labels colors : List String)
    (hnn : ∀ v ∈ values, 0 ≤ v) :
    (displayPieChart values labels colors).total = values.sum ∧
    ((displayPieChart values labels colors).legend.map (fun l => (l.value, l.percentage)) =
      values.map (fun v => (v, jsMulPos (jsDiv v values.sum) 100))) ∧
    (∀ l ∈ (displayPieChart values labels colors).legend,
      (l.percentage.isFinite = true ↔ 0 < values.sum)) ∧
    (values ≠ [] →
      ((∀ l ∈ (displayPieChart values labels colors).legend, l.percentage.isFinite = true) ↔
        0 < values.sum)) ∧
    (values.sum = 0 → ∀ l ∈ (displayPieChart values labels colors).legend,
      l.value = 0 ∧ l.percentage = jsMulPos (jsDiv 0 0) 100 ∧ l.percentage = JSNum.nan) ∧
    (∀ total_analyzed : Nat, ∃ view,
      domContentLoaded (some ⟨⟨0, 0, 0, 0⟩, total_analyzed⟩) = some view ∧
      view.pie.total = 0 ∧
      view.pie.legend.map (fun l => (l.value, l.percentage)) =
        [(0, JSNum.nan), (0, JSNum.nan), (0, JSNum.nan)]) := by
  have hs0 : 0 ≤ values.sum := List.sum_nonneg hnn
  have hiff : values.sum ≠ 0 ↔ 0 < values.sum :=
    ⟨fun h => lt_of_le_of_ne hs0 (Ne.symm h), fun h => ne_of_gt h⟩
  have hmap : (displayPieChart values labels colors).legend.map
      (fun l => (l.value, l.percentage)) =
      values.map (fun v => (v, jsMulPos (jsDiv v values.sum) 100)) := by
    have h := legendLoop_percentages values.sum labels colors 0 values []
    simpa [displayPieChart, foldl_add_eq_sum, piePercentage] using h
  have hone : ∀ l ∈ (displayPieChart values labels colors).legend,
      (l.percentage.isFinite = true ↔ 0 < values.sum) := by
    intro l hl
    rw [(legend_entry values labels colors l hl).2, piePercentage_isFinite_iff]
    exact hiff
  refine ⟨pie_total_eq_sum values labels colors, hmap, hone, ?_, ?_, ?_⟩
  · intro hne
    constructor
    · intro hall
      have hlen : (displayPieChart values labels colors).legend ≠ [] := by
        intro hnil
        have h := congrArg List.length hmap
        rw [hnil] at h
        simp only [List.map_nil, List.length_nil, List.length_map] at h
        exact hne (List.length_eq_zero.mp h.symm)
      obtain ⟨l, hl⟩ := List.exists_mem_of_ne_nil _ hlen
      exact (hone l hl).mp (hall l hl)
    · intro hp l hl
      exact (hone l hl).mpr hp
  · intro hz l hl
    obtain ⟨hv, hp⟩ := legend_entry values labels colors l hl
    have hv0 : l.value = 0 := eq_zero_of_sum_eq_zero values hnn hz l.value hv
    rw [hp, hv0, hz]
    exact ⟨rfl, rfl, piePercentage_zero_zero⟩
  · intro t
    refine ⟨_, rfl, ?_, ?_⟩
    · simp [displayStats, displayPieChart]
    · simp [displayStats, displayPieChart, legendLoop, piePercentage, jsDiv, jsMulPos]

theorem displayPieChart_percentages_defined_iff_witness :
    (∀ v ∈ ([0, 0, 0] : List ℚ), 0 ≤ v) ∧
      ∀ l ∈ (displayPieChart [0, 0, 0] ["Legitimate", "Suspicious", "Spam"]
          ["#10b981", "#f59e0b", "#ef4444"]).legend,
        (l.percentage.isFinite = true ↔ 0 < ([0, 0, 0] : List ℚ).sum) :=
  have h1 : ∀ v ∈ ([0, 0, 0] : List ℚ), 0 ≤ v := by
    intro v hv
    simp only [List.mem_cons, List.mem_singleton, List.not_mem_nil, or_false] at hv
    rcases hv with rfl | rfl | rfl <;> norm_num
  ⟨h1, (displayPieChart_percentages_defined_iff [0, 0, 0] ["Legitimate", "Suspicious", "Spam"]
      ["#10b981", "#f59e0b", "#ef4444"] h1).2.2.1⟩

theorem displayBarChart_widths_witness :
    ∀ b ∈ displayBarChart ⟨0, 0, 0, 0⟩, b.width = JSNum.fin 0 := by
  intro b hb
  obtain ⟨q, hw, _, _, _, _, hz⟩ := (displayBarChart_widths ⟨0, 0, 0, 0⟩).2.2.2 b hb
  rw [hw, hz ⟨rfl, rfl, rfl, rfl⟩]

/-! ## Sample runs -/

theorem trim_sample : trim "  a b \n" = "a b" := by decide

theorem displayPagination_sample :
    displayPagination 5 3 2 =
      some [⟨"page-btn", 1, 1⟩, ⟨"page-btn active", 2, 2⟩, ⟨"page-btn", 3, 3⟩] := by decide

theorem loadArticles_sample :
    loadArticles 4 3 (fun page => if page = 3 then some ⟨[], 3⟩ else none)
        ⟨1, ArticlesView.items [], [⟨"page-btn active", 1, 1⟩]⟩ =
      some ⟨3, ArticlesView.emptyState,
        [⟨"page-btn", 1, 1⟩, ⟨"page-btn", 2, 2⟩, ⟨"page-btn active", 3, 3⟩]⟩ := by decide

theorem detailItems_sample :
    (displayResults ⟨45, "likely_spam", 50,
        [("clickbait_phrases", DetailValue.list ["shocking", "wow"]),
         ("word_count", DetailValue.num 12),
         ("excessive_caps", DetailValue.bool true),
         ("short_content", DetailValue.bool false)]⟩).detailItems =
    ["<div class=\"detail-item\"><div class=\"detail-category\">clickbait phrases</div><div class=\"detail-items\">shocking, wow</div></div>",
     "<div class=\"detail-item\"><div class=\"detail-category\">excessive caps</div><div class=\"detail-items\">Detected</div></div>",
     "<div class=\"detail-item\"><div class=\"detail-category\">short content</div></div>"] := by
  decide

theorem barWidths_sample :
    (displayBarChart ⟨1, 2, 0, 4⟩).map (fun b => b.width) =
      [JSNum.fin 25, JSNum.fin 50, JSNum.fin 0, JSNum.fin 100] := by
  simp [displayBarChart, barData, barMaxValue, jsDiv, jsMulPos]
  norm_num

theorem gradientStops_sample :
    ((displayStats ⟨⟨1, 2, 0, 1⟩, 4⟩).pie.gradientStops).map (fun g => g.position) =
      [JSNum.fin 0, JSNum.fin 25, JSNum.fin 25, JSNum.fin 75, JSNum.fin 75, JSNum.fin 100] := by
  simp [displayStats, displayPieChart, gradientLoop, piePercentage, jsDiv, jsMulPos, jsAdd]
  norm_num

end SpamDetection
